import Mathlib

/-!
Shallow embedding of the ApnaMandi server (`server/routes.ts`, `server/storage.ts`).

Modelling conventions:
* The relational store is a record of lists of rows (insertion order preserved,
  matching how the in-process logic consumes query results).
* Decimal price strings (`parseFloat` / `toString` round trips) are modelled as
  exact rationals `ℚ`; quantities (zod `number().min(1)`) as `Nat`.
* The JavaScript `Map` built from an entry list is modelled as an association
  list with `Map.set` update-or-append semantics (`mapSet`) and first-match
  lookup (`mapGet`), which reproduces last-write-wins on duplicate keys.
* The drizzle `update ... where eq(id)` is modelled as a map over the rows;
  `.returning()` followed by destructuring `[order]` is the first updated row.
* Row identifiers generated by the database are passed in as parameters.
-/

namespace ApnaMandi

/-- Order status enum of the schema: PLACED | PROCURING | ON_THE_WAY | DELIVERED. -/
inductive OrderStatus where
  | PLACED
  | PROCURING
  | ON_THE_WAY
  | DELIVERED
deriving DecidableEq, Repr

/-- `products` table row. -/
structure Product where
  id : String
  name : String
  unit : String
deriving DecidableEq, Repr

/-- `procurement_prices` table row; `price` is the decimal column. -/
structure ProcurementPrice where
  productId : String
  price : ℚ
deriving DecidableEq, Repr

/-- `orders` table row. `total` is kept as the stored decimal string, since the
route writes the literal placeholder string. -/
structure Order where
  id : String
  userId : String
  status : OrderStatus
  total : String
deriving DecidableEq, Repr

/-- `order_items` table row (row id omitted; no logic reads it). -/
structure OrderItem where
  orderId : String
  productId : String
  quantity : Nat
  price : ℚ
deriving DecidableEq, Repr

/-- `deliveries` table row. -/
structure Delivery where
  orderId : String
  deliveredAt : Nat
deriving DecidableEq, Repr

/-- The persistent store: one list of rows per table. -/
structure Storage where
  products : List Product
  orders : List Order
  orderItems : List OrderItem
  procurementPrices : List ProcurementPrice
  deliveries : List Delivery
deriving DecidableEq, Repr

/-! ### JavaScript `Map` model (string-keyed, rational values) -/

/-- `Map.set`: update the existing entry for the key in place, else append. -/
def mapSet : List (String × ℚ) → String → ℚ → List (String × ℚ)
  | [], k, v => [(k, v)]
  | e :: rest, k, v =>
    if e.1 = k then (k, v) :: rest else e :: mapSet rest k v

/-- `Map.get`: first entry with the key. -/
def mapGet (m : List (String × ℚ)) (k : String) : Option ℚ :=
  (m.find? (fun e => e.1 = k)).map (·.2)

/-- `new Map(latestPrices.map(p => [p.productId, parseFloat(p.price)]))`:
entries inserted in list order, later entries overwriting earlier ones. -/
def buildPriceMap (ps : List ProcurementPrice) : List (String × ℚ) :=
  ps.foldl (fun m p => mapSet m p.productId p.price) []

/-! ### storage.ts primitives -/

/-- `createOrder`: insert the row. -/
def createOrder (σ : Storage) (o : Order) : Storage :=
  { σ with orders := σ.orders ++ [o] }

/-- `createOrderItem`: insert the row. -/
def createOrderItem (σ : Storage) (it : OrderItem) : Storage :=
  { σ with orderItems := σ.orderItems ++ [it] }

/-- `createDelivery`: insert the row. -/
def createDelivery (σ : Storage) (d : Delivery) : Storage :=
  { σ with deliveries := σ.deliveries ++ [d] }

/-- `updateOrderStatus`: set `status` on every row whose id matches, returning
the first updated row (drizzle `.returning()` destructured to one row). -/
def updateOrderStatus (σ : Storage) (id : String) (st : OrderStatus) :
    Option Order × Storage :=
  let newOrders := σ.orders.map (fun o => if o.id = id then { o with status := st } else o)
  (newOrders.find? (fun o => o.id = id), { σ with orders := newOrders })

/-- `getLatestProcurementPrices`: `db.select().from(procurementPrices)` — every
historical row, with no per-product reduction. -/
def getLatestProcurementPrices (σ : Storage) : List ProcurementPrice :=
  σ.procurementPrices

/-- `getOrderItems`: items of the order inner-joined to their product rows. -/
def getOrderItemsJoined (σ : Storage) (oid : String) : List (OrderItem × Product) :=
  σ.orderItems.filterMap (fun it =>
    if it.orderId = oid then
      (σ.products.find? (fun p => p.id = it.productId)).map (fun p => (it, p))
    else none)

/-- An order together with its joined items (user join omitted: unused by the
properties below). -/
structure OrderWithItems where
  order : Order
  items : List (OrderItem × Product)
deriving Repr

/-- `getOrder`: the order row plus its joined items. -/
def getOrder (σ : Storage) (id : String) : Option OrderWithItems :=
  (σ.orders.find? (fun o => o.id = id)).map
    (fun o => { order := o, items := getOrderItemsJoined σ id })

/-- `convenienceFeePerOrder` constant of `getPartnerEarnings`. -/
def convenienceFeePerOrder : Nat := 40

/-- `getPartnerEarnings`: `(totalDeliveries, totalEarnings)`. The `partnerId`
argument is accepted and never read, as in the source. -/
def getPartnerEarnings (σ : Storage) (partnerId : Option String) : Nat × Nat :=
  let deliveredOrders := σ.orders.filter (fun o => o.status = OrderStatus.DELIVERED)
  (deliveredOrders.length, deliveredOrders.length * convenienceFeePerOrder)

/-! ### getAggregatedProcurementList -/

/-- One row of the select / one entry of the aggregation map. -/
structure AggRow where
  productId : String
  productName : String
  totalQuantity : Nat
  unit : String
deriving DecidableEq, Repr

/-- One order item pushed through the two inner joins and the
`status = PLACED` filter of the select. -/
def joinRow (σ : Storage) (it : OrderItem) : Option AggRow :=
  match σ.orders.find? (fun o => o.id = it.orderId),
        σ.products.find? (fun p => p.id = it.productId) with
  | some o, some p =>
    if o.status = OrderStatus.PLACED then
      some { productId := it.productId, productName := p.name,
             totalQuantity := it.quantity, unit := p.unit }
    else none
  | _, _ => none

/-- The joined, filtered result set of the select in
`getAggregatedProcurementList`. -/
def procurementJoin (σ : Storage) : List AggRow :=
  σ.orderItems.filterMap (joinRow σ)

/-- One step of the `result.forEach` aggregation: `Map.get` then either
`existing.totalQuantity += item.totalQuantity` or `Map.set`. -/
def aggStep : List AggRow → AggRow → List AggRow
  | [], r => [r]
  | a :: rest, r =>
    if a.productId = r.productId then
      { a with totalQuantity := a.totalQuantity + r.totalQuantity } :: rest
    else a :: aggStep rest r

/-- `getAggregatedProcurementList`: aggregate the joined rows by product. -/
def getAggregatedProcurementList (σ : Storage) : List AggRow :=
  (procurementJoin σ).foldl aggStep []

/-! ### POST /api/orders -/

/-- One `{productId, quantity}` element of the request body. -/
structure LineItem where
  productId : String
  quantity : Nat
deriving DecidableEq, Repr

/-- `createOrderSchema`: an array of items, each with `quantity ≥ 1`
(`z.number().min(1)`); an empty array is accepted. -/
def createOrderValid (items : List LineItem) : Bool :=
  items.all (fun it => 1 ≤ it.quantity)

/-- Response of the POST /api/orders route. A zod failure is caught by the
route's catch-all, producing the 500 response. -/
inductive OrdersResponse where
  | ok (computedTotal : ℚ) (finalOrder : Option OrderWithItems)
  | unauthorized
  | serverError
deriving Repr

/-- The computed total carried by an `ok` response. -/
def OrdersResponse.total : OrdersResponse → Option ℚ
  | .ok t _ => some t
  | _ => none

/-- The read-back order carried by an `ok` response. -/
def OrdersResponse.finalOrder : OrdersResponse → Option (Option OrderWithItems)
  | .ok _ fo => some fo
  | _ => none

/-- Body of the `for (const item of items)` loop: accumulate the running total
and insert one OrderItem carrying the snapshot price. -/
def orderLoopStep (priceMap : List (String × ℚ)) (oid : String)
    (acc : ℚ × Storage) (it : LineItem) : ℚ × Storage :=
  let price := (mapGet priceMap it.productId).getD 0
  (acc.1 + price * it.quantity,
   createOrderItem acc.2
     { orderId := oid, productId := it.productId, quantity := it.quantity, price := price })

/-- The POST /api/orders handler. `newOrderId` stands for the database-generated
id of the inserted order; `userId?` is the `user-id` header. -/
def createOrderRoute (σ : Storage) (userId? : Option String) (newOrderId : String)
    (items : List LineItem) : OrdersResponse × Storage :=
  if createOrderValid items then
    match userId? with
    | none => (.unauthorized, σ)
    | some uid =>
      let latestPrices := getLatestProcurementPrices σ
      let priceMap := buildPriceMap latestPrices
      let σ₁ := createOrder σ { id := newOrderId, userId := uid,
                                status := OrderStatus.PLACED, total := "0" }
      let step := items.foldl (orderLoopStep priceMap newOrderId) ((40 : ℚ), σ₁)
      let σ₃ := (updateOrderStatus step.2 newOrderId OrderStatus.PLACED).2
      (.ok step.1 (getOrder σ₃ newOrderId), σ₃)
  else (.serverError, σ)

/-! ### Other routes -/

/-- Response of PATCH /api/orders/:id/status. -/
inductive StatusResponse where
  | ok (order : Order)
  | notFound
deriving DecidableEq, Repr

/-- The PATCH /api/orders/:id/status handler: unconditional overwrite, 404 when
no row was updated. -/
def patchOrderStatus (σ : Storage) (id : String) (st : OrderStatus) :
    StatusResponse × Storage :=
  let r := updateOrderStatus σ id st
  match r.1 with
  | none => (.notFound, r.2)
  | some o => (.ok o, r.2)

/-- The POST /api/partner/mark-delivered handler: insert the Delivery row with
`deliveredAt := now`, then set the order status to DELIVERED. -/
def markDelivered (σ : Storage) (orderId : String) (now : Nat) :
    Delivery × Storage :=
  let d : Delivery := { orderId := orderId, deliveredAt := now }
  let σ₁ := createDelivery σ d
  (d, (updateOrderStatus σ₁ orderId OrderStatus.DELIVERED).2)

/-! ### Spec-side definitions (for refinement statements) -/

/-- The snapshot unit price the handler uses for a product: the price-map entry
when one has been set, else 0. -/
def snapshotPrice (σ : Storage) (pid : String) : ℚ :=
  (mapGet (buildPriceMap σ.procurementPrices) pid).getD 0

/-- Spec formula for the order total: `40 + Σ price_i * quantity_i` over the
snapshot taken at order time. -/
def specOrderTotal (σ : Storage) (items : List LineItem) : ℚ :=
  40 + (items.map (fun it => snapshotPrice σ it.productId * it.quantity)).sum

/-- The OrderItem row the spec says is persisted for a line item. -/
def specItemRow (σ : Storage) (oid : String) (it : LineItem) : OrderItem :=
  { orderId := oid, productId := it.productId, quantity := it.quantity,
    price := snapshotPrice σ it.productId }

/-- Whether the parent order of an item (looked up by id) is in status PLACED. -/
def orderIsPlaced (σ : Storage) (oid : String) : Bool :=
  match σ.orders.find? (fun o => o.id = oid) with
  | some o => o.status = OrderStatus.PLACED
  | none => false

/-- Spec formula for outstanding PLACED demand of one product: the sum of the
quantities of its items whose parent order is PLACED. -/
def placedDemand (σ : Storage) (pid : String) : Nat :=
  ((σ.orderItems.filter
      (fun it => it.productId = pid ∧ orderIsPlaced σ it.orderId)).map
    (·.quantity)).sum

/-- Accumulated quantity stored under one key of an aggregation list. -/
def keyTotal (l : List AggRow) (pid : String) : Nat :=
  ((l.filter (fun a => a.productId = pid)).map (·.totalQuantity)).sum

/-! ### Concrete fixtures for the witness theorems -/

/-- A product row used by concrete instantiations. -/
def wProductA : Product := { id := "pA", name := "Onions", unit := "kg" }

/-- A second product row. -/
def wProductB : Product := { id := "pB", name := "Potatoes", unit := "kg" }

/-- A PLACED order. -/
def wOrder1 : Order := { id := "o1", userId := "u1", status := OrderStatus.PLACED, total := "0" }

/-- Another PLACED order. -/
def wOrder2 : Order := { id := "o2", userId := "u2", status := OrderStatus.PLACED, total := "0" }

/-- A concrete store: two PLACED orders demanding product A (quantities 2 and
5), a price of 10 set for product A, none for product B. -/
def wStore : Storage :=
  { products := [wProductA, wProductB],
    orders := [wOrder1, wOrder2],
    orderItems :=
      [ { orderId := "o1", productId := "pA", quantity := 2, price := 0 },
        { orderId := "o2", productId := "pA", quantity := 5, price := 0 } ],
    procurementPrices := [ { productId := "pA", price := 10 } ],
    deliveries := [] }

/-- A concrete request body: product A twice, unpriced product B three times. -/
def wItems : List LineItem :=
  [ { productId := "pA", quantity := 2 }, { productId := "pB", quantity := 3 } ]

/-! ## Lemmas about the `Map` model -/

theorem mapGet_nil (k : String) : mapGet [] k = none := rfl

theorem mapGet_cons (e : String × ℚ) (m : List (String × ℚ)) (k : String) :
    mapGet (e :: m) k = if e.1 = k then some e.2 else mapGet m k := by
  by_cases h : e.1 = k <;> simp [mapGet, List.find?, h]

theorem mapGet_mapSet (m : List (String × ℚ)) (k : String) (v : ℚ) (k' : String) :
    mapGet (mapSet m k v) k' = if k' = k then some v else mapGet m k' := by
  induction m with
  | nil =>
    by_cases h : k' = k
    · subst h; simp [mapSet, mapGet_cons]
    · simp [mapSet, mapGet_cons, mapGet_nil, h, Ne.symm h]
  | cons e rest ih =>
    by_cases he : e.1 = k
    · by_cases h : k' = k
      · subst h; simp [mapSet, he, mapGet_cons]
      · simp [mapSet, he, mapGet_cons, h, Ne.symm h]
    · by_cases h : k' = k
      · subst h; simp [mapSet, he, mapGet_cons, ih]
      · simp [mapSet, he, mapGet_cons, ih, h]

theorem mapGet_foldl_mapSet (ps : List ProcurementPrice) (m : List (String × ℚ)) (k : String) :
    mapGet (ps.foldl (fun m p => mapSet m p.productId p.price) m) k =
      match ps.reverse.find? (fun p => p.productId = k) with
      | some p => some p.price
      | none => mapGet m k := by
  induction ps generalizing m with
  | nil => simp
  | cons p rest ih =>
    rw [List.foldl_cons, ih, List.reverse_cons, List.find?_append]
    cases h : rest.reverse.find? (fun q => decide (q.productId = k)) with
    | some q => simp [h, Option.or]
    | none =>
      simp only [h, Option.or_none, Option.none_or]
      by_cases hk : p.productId = k
      · simp [List.find?, hk, mapGet_mapSet]
      · simp [List.find?, hk, mapGet_mapSet, Ne.symm hk]

theorem mapGet_buildPriceMap (ps : List ProcurementPrice) (k : String) :
    mapGet (buildPriceMap ps) k =
      (ps.reverse.find? (fun p => p.productId = k)).map (·.price) := by
  rw [buildPriceMap, mapGet_foldl_mapSet]
  cases h : ps.reverse.find? (fun p => decide (p.productId = k)) <;> simp [h, mapGet_nil]

/-! ## Claim theorems: pricing and earnings -/

/-- C5: `getLatestProcurementPrices` returns every historical price row, and
the price-map lookup the order-total computation uses resolves each product to
the last row for that product in the returned sequence (last-write-wins). -/
theorem latest_prices_all_rows_last_write_wins (σ : Storage) :
    getLatestProcurementPrices σ = σ.procurementPrices ∧
    ∀ pid, mapGet (buildPriceMap (getLatestProcurementPrices σ)) pid =
      (((getLatestProcurementPrices σ).reverse.find?
          (fun p => p.productId = pid)).map (·.price)) :=
  ⟨rfl, fun pid => mapGet_buildPriceMap σ.procurementPrices pid⟩

/-- C3: partner earnings: `totalDeliveries` counts the DELIVERED orders,
`totalEarnings` is exactly `40 * totalDeliveries`, and the result does not
depend on order items, prices, products or delivery rows. -/
theorem partner_earnings_formula (σ : Storage) (partnerId : Option String) :
    (getPartnerEarnings σ partnerId).1 =
      (σ.orders.filter (fun o => o.status = OrderStatus.DELIVERED)).length ∧
    (getPartnerEarnings σ partnerId).2 = 40 * (getPartnerEarnings σ partnerId).1 ∧
    ∀ ps its pps ds,
      getPartnerEarnings
        { σ with products := ps, orderItems := its,
                 procurementPrices := pps, deliveries := ds } partnerId =
      getPartnerEarnings σ partnerId :=
  ⟨rfl, Nat.mul_comm _ _, fun _ _ _ _ => rfl⟩

/-- C8: `getPartnerEarnings` returns the same result for every `partnerId`
argument (present or absent): the parameter is ignored. -/
theorem partner_earnings_ignore_partnerId (σ : Storage) (pid₁ pid₂ : Option String) :
    getPartnerEarnings σ pid₁ = getPartnerEarnings σ pid₂ := rfl

/-! ## Lemmas about `updateOrderStatus` -/

theorem updateOrderStatus_fst (σ : Storage) (id : String) (st : OrderStatus) :
    (updateOrderStatus σ id st).1 =
      (σ.orders.map (fun o => if o.id = id then { o with status := st } else o)).find?
        (fun o => o.id = id) := rfl

theorem updateOrderStatus_snd (σ : Storage) (id : String) (st : OrderStatus) :
    (updateOrderStatus σ id st).2 =
      { σ with orders :=
          σ.orders.map (fun o => if o.id = id then { o with status := st } else o) } := rfl

theorem find?_updateOrders (l : List Order) (id : String) (st : OrderStatus) :
    (l.map (fun o => if o.id = id then { o with status := st } else o)).find?
        (fun o => o.id = id) =
      (l.find? (fun o => o.id = id)).map
        (fun o => if o.id = id then { o with status := st } else o) := by
  rw [List.find?_map]
  have hfun : ((fun o : Order => decide (o.id = id)) ∘
      (fun o => if o.id = id then { o with status := st } else o)) =
      (fun o : Order => decide (o.id = id)) := by
    funext o
    by_cases h : o.id = id <;> simp [h]
  rw [hfun]

theorem updateOrders_of_absent (l : List Order) (id : String) (st : OrderStatus)
    (h : ∀ o ∈ l, ¬ o.id = id) :
    l.map (fun o => if o.id = id then { o with status := st } else o) = l := by
  conv_rhs => rw [← List.map_id l]
  exact List.map_congr_left (fun o ho => by simp [h o ho])

/-! ## Claim theorems: status routes -/

/-- C6: PATCH /api/orders/:id/status overwrites the status of an existing
order with any supplied value (no transition guard), and answers 404 with an
unchanged store when no order has the id. -/
theorem patch_status_unconditional (σ : Storage) (id : String) (st : OrderStatus) :
    ((σ.orders.find? (fun o => o.id = id)).isSome →
      (∃ o, (patchOrderStatus σ id st).1 = StatusResponse.ok o ∧ o.status = st) ∧
      (((patchOrderStatus σ id st).2.orders.find? (fun o => o.id = id)).map
          Order.status) = some st) ∧
    (σ.orders.find? (fun o => o.id = id) = none →
      patchOrderStatus σ id st = (StatusResponse.notFound, σ)) := by
  constructor
  · intro h
    obtain ⟨o, ho⟩ := Option.isSome_iff_exists.mp h
    have hid : o.id = id := by simpa using List.find?_some ho
    have hfind : (updateOrderStatus σ id st).1 = some { o with status := st } := by
      rw [updateOrderStatus_fst, find?_updateOrders, ho]
      simp [hid]
    constructor
    · exact ⟨{ o with status := st }, by simp [patchOrderStatus, hfind], rfl⟩
    · have hstate : (patchOrderStatus σ id st).2 = (updateOrderStatus σ id st).2 := by
        simp [patchOrderStatus, hfind]
      rw [hstate, updateOrderStatus_snd]
      show ((σ.orders.map _).find? _).map Order.status = some st
      rw [find?_updateOrders, ho]
      simp [hid]
  · intro h
    have hnone : ∀ o ∈ σ.orders, ¬ o.id = id := by
      intro o ho
      have := List.find?_eq_none.mp h o ho
      simpa using this
    have hmap := updateOrders_of_absent σ.orders id st hnone
    have h1 : (updateOrderStatus σ id st).1 = none := by
      rw [updateOrderStatus_fst, hmap, h]
    have h2 : (updateOrderStatus σ id st).2 = σ := by
      rw [updateOrderStatus_snd, hmap]
    have hres : patchOrderStatus σ id st =
        (StatusResponse.notFound, (updateOrderStatus σ id st).2) := by
      simp [patchOrderStatus, h1]
    rw [hres, h2]

/-- Witness for C6 at concrete inputs: order `o1` of `wStore` is overwritten
to DELIVERED, and a missing id answers 404 leaving the store unchanged. -/
theorem patch_status_unconditional_witness :
    ((∃ o, (patchOrderStatus wStore "o1" OrderStatus.DELIVERED).1 = StatusResponse.ok o ∧
        o.status = OrderStatus.DELIVERED) ∧
      (((patchOrderStatus wStore "o1" OrderStatus.DELIVERED).2.orders.find?
            (fun o => o.id = "o1")).map Order.status) = some OrderStatus.DELIVERED) ∧
    patchOrderStatus wStore "zzz" OrderStatus.DELIVERED = (StatusResponse.notFound, wStore) :=
  ⟨(patch_status_unconditional wStore "o1" OrderStatus.DELIVERED).1 (by decide),
   (patch_status_unconditional wStore "zzz" OrderStatus.DELIVERED).2 (by decide)⟩

theorem markDelivered_fst (σ : Storage) (oid : String) (now : Nat) :
    (markDelivered σ oid now).1 = { orderId := oid, deliveredAt := now } := rfl

theorem markDelivered_snd (σ : Storage) (oid : String) (now : Nat) :
    (markDelivered σ oid now).2 =
      { σ with
        deliveries := σ.deliveries ++ [{ orderId := oid, deliveredAt := now }],
        orders := σ.orders.map
          (fun o => if o.id = oid then { o with status := OrderStatus.DELIVERED } else o) } := rfl

/-- C7: POST /api/partner/mark-delivered inserts a Delivery row for the order
(with the request-time `deliveredAt`) and flips that order's status to
DELIVERED. -/
theorem mark_delivered_effects (σ : Storage) (oid : String) (now : Nat)
    (h : (σ.orders.find? (fun o => o.id = oid)).isSome) :
    (markDelivered σ oid now).1 = { orderId := oid, deliveredAt := now } ∧
    ({ orderId := oid, deliveredAt := now } : Delivery) ∈ (markDelivered σ oid now).2.deliveries ∧
    (((markDelivered σ oid now).2.orders.find? (fun o => o.id = oid)).map
        Order.status) = some OrderStatus.DELIVERED := by
  obtain ⟨o, ho⟩ := Option.isSome_iff_exists.mp h
  have hid : o.id = oid := by simpa using List.find?_some ho
  refine ⟨rfl, ?_, ?_⟩
  · rw [markDelivered_snd]
    simp
  · rw [markDelivered_snd]
    show ((σ.orders.map _).find? _).map Order.status = some OrderStatus.DELIVERED
    rw [find?_updateOrders, ho]
    simp [hid]

/-- Witness for C7: marking `o1` of `wStore` delivered at time 5 creates the
Delivery row and sets the order's status to DELIVERED. -/
theorem mark_delivered_effects_witness :
    (markDelivered wStore "o1" 5).1 = { orderId := "o1", deliveredAt := 5 } ∧
    ({ orderId := "o1", deliveredAt := 5 } : Delivery) ∈ (markDelivered wStore "o1" 5).2.deliveries ∧
    (((markDelivered wStore "o1" 5).2.orders.find? (fun o => o.id = "o1")).map
        Order.status) = some OrderStatus.DELIVERED :=
  mark_delivered_effects wStore "o1" 5 (by decide)

/-! ## Lemmas about the POST /api/orders handler -/

theorem orderLoop_spec (pm : List (String × ℚ)) (oid : String) (items : List LineItem)
    (t : ℚ) (σ : Storage) :
    items.foldl (orderLoopStep pm oid) (t, σ) =
      (t + (items.map (fun it => (mapGet pm it.productId).getD 0 * it.quantity)).sum,
       { σ with orderItems := σ.orderItems ++ items.map (fun it =>
           { orderId := oid, productId := it.productId, quantity := it.quantity,
             price := (mapGet pm it.productId).getD 0 }) }) := by
  induction items generalizing t σ with
  | nil => simp
  | cons it rest ih =>
    simp only [List.foldl_cons, orderLoopStep, createOrderItem, ih, List.map_cons,
      List.sum_cons, Prod.mk.injEq]
    constructor
    · ring
    · simp [List.append_assoc]

/-- The state after the whole POST /api/orders flow (order insert, item
inserts, redundant status update). -/
def createOrderFinalState (σ : Storage) (uid nid : String) (items : List LineItem) : Storage :=
  { σ with
    orders :=
      (σ.orders ++ [({ id := nid, userId := uid, status := OrderStatus.PLACED,
                       total := "0" } : Order)]).map
        (fun o : Order => if o.id = nid then { o with status := OrderStatus.PLACED } else o),
    orderItems := σ.orderItems ++ items.map (specItemRow σ nid) }

theorem createOrderRoute_eq (σ : Storage) (uid nid : String) (items : List LineItem)
    (hv : createOrderValid items = true) :
    createOrderRoute σ (some uid) nid items =
      (OrdersResponse.ok (specOrderTotal σ items)
        (getOrder (createOrderFinalState σ uid nid items) nid),
       createOrderFinalState σ uid nid items) := by
  simp only [createOrderRoute, hv, if_true, getLatestProcurementPrices, createOrder,
    orderLoop_spec, updateOrderStatus_snd, createOrderFinalState, specOrderTotal,
    specItemRow, snapshotPrice]
  rfl

/-! ## Claim theorems: order creation -/

/-- C1: for every order request (all quantities ≥ 1) the handler computes the
total `40 + Σ price_i * quantity_i`, where `price_i` is the snapshot price for
the product when one is set and 0 otherwise, and persists exactly one
OrderItem per line item carrying that snapshot price under the new order's
id. -/
theorem order_total_and_item_rows (σ : Storage) (uid nid : String)
    (items : List LineItem) (hq : ∀ it ∈ items, 1 ≤ it.quantity) :
    ((createOrderRoute σ (some uid) nid items).1).total = some (specOrderTotal σ items) ∧
    ((createOrderRoute σ (some uid) nid items).2).orderItems =
      σ.orderItems ++ items.map (specItemRow σ nid) := by
  have hv : createOrderValid items = true := by
    simpa [createOrderValid, List.all_eq_true] using hq
  rw [createOrderRoute_eq σ uid nid items hv]
  exact ⟨rfl, rfl⟩

/-- Witness for C1: placing `wItems` (priced product A × 2, unpriced product
B × 3) against `wStore`. -/
theorem order_total_and_item_rows_witness :
    ((createOrderRoute wStore (some "u1") "o9" wItems).1).total =
      some (specOrderTotal wStore wItems) ∧
    ((createOrderRoute wStore (some "u1") "o9" wItems).2).orderItems =
      wStore.orderItems ++ wItems.map (specItemRow wStore "o9") :=
  order_total_and_item_rows wStore "u1" "o9" wItems (by decide)

/-- C4: after a successful POST /api/orders flow, the persisted order row
still carries the placeholder total "0" (the computed total is never written
back), while the status is PLACED, the userId is the request's and the
OrderItem rows reflect the request. -/
theorem order_total_placeholder_persisted (σ : Storage) (uid nid : String)
    (items : List LineItem) (hq : ∀ it ∈ items, 1 ≤ it.quantity)
    (hfresh : ∀ o ∈ σ.orders, ¬ o.id = nid) :
    ((createOrderRoute σ (some uid) nid items).2).orders.find? (fun o => o.id = nid) =
      some { id := nid, userId := uid, status := OrderStatus.PLACED, total := "0" } ∧
    ((createOrderRoute σ (some uid) nid items).1).finalOrder =
      some (some
        { order := { id := nid, userId := uid, status := OrderStatus.PLACED, total := "0" },
          items := getOrderItemsJoined ((createOrderRoute σ (some uid) nid items).2) nid }) ∧
    ((createOrderRoute σ (some uid) nid items).2).orderItems =
      σ.orderItems ++ items.map (specItemRow σ nid) := by
  have hv : createOrderValid items = true := by
    simpa [createOrderValid, List.all_eq_true] using hq
  rw [createOrderRoute_eq σ uid nid items hv]
  have hfind : (createOrderFinalState σ uid nid items).orders.find? (fun o => o.id = nid) =
      some { id := nid, userId := uid, status := OrderStatus.PLACED, total := "0" } := by
    show ((σ.orders ++ _).map _).find? _ = _
    rw [List.map_append, updateOrders_of_absent σ.orders nid OrderStatus.PLACED hfresh,
      List.find?_append]
    have hleft : σ.orders.find? (fun o => decide (o.id = nid)) = none := by
      rw [List.find?_eq_none]
      intro o ho
      simpa using hfresh o ho
    rw [hleft]
    simp
  refine ⟨hfind, ?_, rfl⟩
  simp only [getOrder, hfind, Option.map_some]
  rfl

/-- Witness for C4 at a fresh order id against `wStore`. -/
theorem order_total_placeholder_persisted_witness :
    ((createOrderRoute wStore (some "u1") "o9" wItems).2).orders.find? (fun o => o.id = "o9") =
      some { id := "o9", userId := "u1", status := OrderStatus.PLACED, total := "0" } ∧
    ((createOrderRoute wStore (some "u1") "o9" wItems).1).finalOrder =
      some (some
        { order := { id := "o9", userId := "u1", status := OrderStatus.PLACED, total := "0" },
          items := getOrderItemsJoined ((createOrderRoute wStore (some "u1") "o9" wItems).2) "o9" }) ∧
    ((createOrderRoute wStore (some "u1") "o9" wItems).2).orderItems =
      wStore.orderItems ++ wItems.map (specItemRow wStore "o9") :=
  order_total_placeholder_persisted wStore "u1" "o9" wItems (by decide) (by decide)

/-- C9: the order-total computation is deterministic in the price snapshot and
does not mutate it: the handler leaves the procurement-price rows (hence the
derived price map) unchanged, and recomputing the total from the post-state
snapshot yields the same total it computed. -/
theorem order_total_idempotent_no_price_mutation (σ : Storage) (uid nid : String)
    (items : List LineItem) (hq : ∀ it ∈ items, 1 ≤ it.quantity) :
    ((createOrderRoute σ (some uid) nid items).2).procurementPrices = σ.procurementPrices ∧
    buildPriceMap (getLatestProcurementPrices ((createOrderRoute σ (some uid) nid items).2)) =
      buildPriceMap (getLatestProcurementPrices σ) ∧
    ((createOrderRoute σ (some uid) nid items).1).total = some (specOrderTotal σ items) ∧
    specOrderTotal ((createOrderRoute σ (some uid) nid items).2) items =
      specOrderTotal σ items := by
  have hv : createOrderValid items = true := by
    simpa [createOrderValid, List.all_eq_true] using hq
  rw [createOrderRoute_eq σ uid nid items hv]
  exact ⟨rfl, rfl, rfl, rfl⟩

/-- Witness for C9 at `wStore` and `wItems`. -/
theorem order_total_idempotent_no_price_mutation_witness :
    ((createOrderRoute wStore (some "u1") "o9" wItems).2).procurementPrices =
      wStore.procurementPrices ∧
    buildPriceMap (getLatestProcurementPrices ((createOrderRoute wStore (some "u1") "o9" wItems).2)) =
      buildPriceMap (getLatestProcurementPrices wStore) ∧
    ((createOrderRoute wStore (some "u1") "o9" wItems).1).total =
      some (specOrderTotal wStore wItems) ∧
    specOrderTotal ((createOrderRoute wStore (some "u1") "o9" wItems).2) wItems =
      specOrderTotal wStore wItems :=
  order_total_idempotent_no_price_mutation wStore "u1" "o9" wItems (by decide)

/-- C10: an empty items array passes validation and the flow succeeds: the
order row is created with status PLACED (and the placeholder total), no
OrderItem rows are inserted, and the computed total is exactly the
convenience fee 40. -/
theorem empty_order_accepted (σ : Storage) (uid nid : String)
    (hfresh : ∀ o ∈ σ.orders, ¬ o.id = nid) :
    createOrderValid [] = true ∧
    ((createOrderRoute σ (some uid) nid []).1).total = some 40 ∧
    ((createOrderRoute σ (some uid) nid []).2).orderItems = σ.orderItems ∧
    ((createOrderRoute σ (some uid) nid []).2).orders.find? (fun o => o.id = nid) =
      some { id := nid, userId := uid, status := OrderStatus.PLACED, total := "0" } := by
  rw [createOrderRoute_eq σ uid nid [] rfl]
  refine ⟨rfl, ?_, by simp [createOrderFinalState], ?_⟩
  · show some (specOrderTotal σ []) = some 40
    simp [specOrderTotal]
  · show ((σ.orders ++ _).map _).find? _ = _
    rw [List.map_append, updateOrders_of_absent σ.orders nid OrderStatus.PLACED hfresh,
      List.find?_append]
    have hleft : σ.orders.find? (fun o => decide (o.id = nid)) = none := by
      rw [List.find?_eq_none]
      intro o ho
      simpa using hfresh o ho
    rw [hleft]
    simp

/-- Witness for C10: the empty order against `wStore` at fresh id `o9`. -/
theorem empty_order_accepted_witness :
    createOrderValid [] = true ∧
    ((createOrderRoute wStore (some "u1") "o9" []).1).total = some 40 ∧
    ((createOrderRoute wStore (some "u1") "o9" []).2).orderItems = wStore.orderItems ∧
    ((createOrderRoute wStore (some "u1") "o9" []).2).orders.find? (fun o => o.id = "o9") =
      some { id := "o9", userId := "u1", status := OrderStatus.PLACED, total := "0" } :=
  empty_order_accepted wStore "u1" "o9" (by decide)

/-! ## Lemmas about the procurement aggregation -/

theorem keyTotal_nil (pid : String) : keyTotal [] pid = 0 := rfl

theorem keyTotal_cons (a : AggRow) (l : List AggRow) (pid : String) :
    keyTotal (a :: l) pid =
      (if a.productId = pid then a.totalQuantity else 0) + keyTotal l pid := by
  by_cases h : a.productId = pid <;> simp [keyTotal, List.filter_cons, h]

theorem keyTotal_eq_zero_of_not_mem (l : List AggRow) (pid : String)
    (h : pid ∉ l.map (·.productId)) : keyTotal l pid = 0 := by
  induction l with
  | nil => rfl
  | cons a rest ih =>
    simp only [List.map_cons, List.mem_cons, not_or] at h
    rw [keyTotal_cons, if_neg (fun hh => h.1 hh.symm), ih h.2]

theorem aggStep_keys (acc : List AggRow) (r : AggRow) :
    (aggStep acc r).map (·.productId) =
      if r.productId ∈ acc.map (·.productId) then acc.map (·.productId)
      else acc.map (·.productId) ++ [r.productId] := by
  induction acc with
  | nil => simp [aggStep]
  | cons a rest ih =>
    by_cases h : a.productId = r.productId
    · simp [aggStep, h]
    · simp only [aggStep, if_neg h, List.map_cons, ih, List.mem_cons]
      by_cases h2 : r.productId ∈ rest.map (·.productId)
      · simp [h2, Ne.symm h]
      · simp [h2, Ne.symm h]

theorem aggStep_keys_nodup (acc : List AggRow) (r : AggRow)
    (h : (acc.map (·.productId)).Nodup) : ((aggStep acc r).map (·.productId)).Nodup := by
  rw [aggStep_keys]
  by_cases hm : r.productId ∈ acc.map (·.productId)
  · simpa [hm] using h
  · simp [hm, List.nodup_append, h]

theorem keyTotal_aggStep (acc : List AggRow) (r : AggRow) (pid : String) :
    keyTotal (aggStep acc r) pid =
      keyTotal acc pid + (if r.productId = pid then r.totalQuantity else 0) := by
  induction acc with
  | nil =>
    by_cases h : r.productId = pid <;> simp [aggStep, keyTotal_cons, keyTotal_nil, h]
  | cons a rest ih =>
    by_cases h : a.productId = r.productId
    · have hproj : ({ a with totalQuantity := a.totalQuantity + r.totalQuantity } :
          AggRow).productId = a.productId := rfl
      simp only [aggStep, if_pos h, keyTotal_cons, hproj]
      by_cases h2 : a.productId = pid
      · rw [if_pos h2, if_pos h2, if_pos (h.symm.trans h2)]
        omega
      · have h3 : ¬ r.productId = pid := fun hh => h2 (h.trans hh)
        rw [if_neg h2, if_neg h2, if_neg h3]
        omega
    · simp only [aggStep, if_neg h, keyTotal_cons, ih]
      omega

theorem keyTotal_foldl (rows : List AggRow) (acc : List AggRow) (pid : String) :
    keyTotal (rows.foldl aggStep acc) pid = keyTotal acc pid + keyTotal rows pid := by
  induction rows generalizing acc with
  | nil => simp [keyTotal_nil]
  | cons r rest ih =>
    rw [List.foldl_cons, ih, keyTotal_aggStep, keyTotal_cons]
    omega

theorem mem_keys_foldl (rows : List AggRow) (acc : List AggRow) (pid : String) :
    pid ∈ (rows.foldl aggStep acc).map (·.productId) ↔
      pid ∈ acc.map (·.productId) ∨ pid ∈ rows.map (·.productId) := by
  induction rows generalizing acc with
  | nil => simp
  | cons r rest ih =>
    rw [List.foldl_cons, ih, aggStep_keys]
    by_cases hm : r.productId ∈ acc.map (·.productId)
    · simp only [if_pos hm, List.map_cons, List.mem_cons]
      constructor
      · intro hh
        tauto
      · intro hh
        rcases hh with hh | hh | hh
        · tauto
        · subst hh; tauto
        · tauto
    · simp only [if_neg hm, List.map_cons, List.mem_cons, List.mem_append,
        List.mem_singleton]
      tauto

theorem nodup_keys_foldl (rows : List AggRow) (acc : List AggRow)
    (h : (acc.map (·.productId)).Nodup) :
    ((rows.foldl aggStep acc).map (·.productId)).Nodup := by
  induction rows generalizing acc with
  | nil => exact h
  | cons r rest ih => exact ih _ (aggStep_keys_nodup acc r h)

theorem totalQuantity_eq_keyTotal (l : List AggRow)
    (h : (l.map (·.productId)).Nodup) (a : AggRow) (ha : a ∈ l) :
    a.totalQuantity = keyTotal l a.productId := by
  induction l with
  | nil => cases ha
  | cons b rest ih =>
    simp only [List.map_cons, List.nodup_cons] at h
    rcases List.mem_cons.mp ha with hab | har
    · subst hab
      rw [keyTotal_cons, if_pos rfl,
        keyTotal_eq_zero_of_not_mem rest a.productId h.1]
      omega
    · have hne : ¬ b.productId = a.productId := by
        intro hh
        exact h.1 (hh ▸ (List.mem_map.mpr ⟨a, har, rfl⟩))
      rw [keyTotal_cons, if_neg hne, ih h.2 har]
      omega

theorem keyTotal_filterMap_joinRow (σ : Storage) (l : List OrderItem)
    (hp : ∀ it ∈ l, (σ.products.find? (fun p => p.id = it.productId)).isSome)
    (pid : String) :
    keyTotal (l.filterMap (joinRow σ)) pid =
      ((l.filter (fun it => it.productId = pid ∧ orderIsPlaced σ it.orderId)).map
        (·.quantity)).sum := by
  induction l with
  | nil => rfl
  | cons it rest ih =>
    have hp0 := hp it (List.mem_cons_self it rest)
    have hprest : ∀ x ∈ rest, (σ.products.find? (fun p => p.id = x.productId)).isSome :=
      fun x hx => hp x (List.mem_cons_of_mem it hx)
    obtain ⟨p, hpe⟩ := Option.isSome_iff_exists.mp hp0
    cases horder : σ.orders.find? (fun o => o.id = it.orderId) with
    | none =>
      have hrow : joinRow σ it = none := by
        simp [joinRow, horder, hpe]
      have hplaced : orderIsPlaced σ it.orderId = false := by
        rw [orderIsPlaced, horder]
      rw [List.filterMap_cons_none hrow, List.filter_cons]
      simp [hplaced, ih hprest]
    | some o =>
      by_cases hst : o.status = OrderStatus.PLACED
      · have hrow : joinRow σ it =
            some { productId := it.productId, productName := p.name,
                   totalQuantity := it.quantity, unit := p.unit } := by
          simp [joinRow, horder, hpe, hst]
        have hplaced : orderIsPlaced σ it.orderId = true := by
          simp [orderIsPlaced, horder, hst]
        rw [List.filterMap_cons_some hrow, keyTotal_cons, List.filter_cons]
        by_cases hid : it.productId = pid
        · simp [hplaced, hid, ih hprest]
        · simp [hplaced, hid, ih hprest]
      · have hrow : joinRow σ it = none := by
          simp [joinRow, horder, hpe, hst]
        have hplaced : orderIsPlaced σ it.orderId = false := by
          simp [orderIsPlaced, horder, hst]
        rw [List.filterMap_cons_none hrow, List.filter_cons]
        simp [hplaced, ih hprest]

theorem mem_keys_filterMap_joinRow (σ : Storage) (l : List OrderItem)
    (hp : ∀ it ∈ l, (σ.products.find? (fun p => p.id = it.productId)).isSome)
    (pid : String) :
    pid ∈ (l.filterMap (joinRow σ)).map (·.productId) ↔
      ∃ it ∈ l, it.productId = pid ∧ orderIsPlaced σ it.orderId = true := by
  induction l with
  | nil => simp
  | cons it rest ih =>
    have hp0 := hp it (List.mem_cons_self it rest)
    have hprest : ∀ x ∈ rest, (σ.products.find? (fun p => p.id = x.productId)).isSome :=
      fun x hx => hp x (List.mem_cons_of_mem it hx)
    obtain ⟨p, hpe⟩ := Option.isSome_iff_exists.mp hp0
    cases horder : σ.orders.find? (fun o => o.id = it.orderId) with
    | none =>
      have hrow : joinRow σ it = none := by
        simp [joinRow, horder, hpe]
      have hplaced : orderIsPlaced σ it.orderId = false := by
        rw [orderIsPlaced, horder]
      rw [List.filterMap_cons_none hrow, ih hprest]
      simp [hplaced]
    | some o =>
      by_cases hst : o.status = OrderStatus.PLACED
      · have hrow : joinRow σ it =
            some { productId := it.productId, productName := p.name,
                   totalQuantity := it.quantity, unit := p.unit } := by
          simp [joinRow, horder, hpe, hst]
        have hplaced : orderIsPlaced σ it.orderId = true := by
          simp [orderIsPlaced, horder, hst]
        rw [List.filterMap_cons_some hrow]
        simp only [List.map_cons, List.mem_cons, ih hprest]
        constructor
        · intro hh
          rcases hh with hh | hh
          · exact ⟨it, Or.inl rfl, hh.symm, hplaced⟩
          · obtain ⟨x, hx, hx2, hx3⟩ := hh
            exact ⟨x, Or.inr hx, hx2, hx3⟩
        · intro hh
          obtain ⟨x, hx, hx2, hx3⟩ := hh
          rcases hx with hx | hx
          · left; rw [← hx2, hx]
          · right; exact ⟨x, hx, hx2, hx3⟩
      · have hrow : joinRow σ it = none := by
          simp [joinRow, horder, hpe, hst]
        have hplaced : orderIsPlaced σ it.orderId = false := by
          simp [orderIsPlaced, horder, hst]
        rw [List.filterMap_cons_none hrow, ih hprest]
        simp [hplaced]

/-! ## Claim theorem: procurement aggregation -/

/-- C2: `getAggregatedProcurementList` returns exactly one row per distinct
product that appears in at least one order item whose parent order is PLACED,
with `totalQuantity` the sum of those items' quantities; there are no duplicate
product rows, and products with zero PLACED demand are absent. The id-Nodup
hypotheses record the primary-key invariants under which the `find?`-based
join models the SQL inner joins; the remaining hypotheses are the spec's row
invariants (every item references an existing product, quantities ≥ 1). -/
theorem aggregated_procurement_correct (σ : Storage)
    (honodup : (σ.orders.map (·.id)).Nodup)
    (hpnodup : (σ.products.map (·.id)).Nodup)
    (hp : ∀ it ∈ σ.orderItems, (σ.products.find? (fun p => p.id = it.productId)).isSome)
    (hq : ∀ it ∈ σ.orderItems, 1 ≤ it.quantity) :
    ((getAggregatedProcurementList σ).map (·.productId)).Nodup ∧
    (∀ pid, pid ∈ (getAggregatedProcurementList σ).map (·.productId) ↔
      ∃ it ∈ σ.orderItems, it.productId = pid ∧ orderIsPlaced σ it.orderId = true) ∧
    (∀ a ∈ getAggregatedProcurementList σ, a.totalQuantity = placedDemand σ a.productId) ∧
    (∀ pid, placedDemand σ pid = 0 →
      pid ∉ (getAggregatedProcurementList σ).map (·.productId)) := by
  have hnodup : ((getAggregatedProcurementList σ).map (·.productId)).Nodup :=
    nodup_keys_foldl (procurementJoin σ) [] (by simp)
  have hmem : ∀ pid, pid ∈ (getAggregatedProcurementList σ).map (·.productId) ↔
      ∃ it ∈ σ.orderItems, it.productId = pid ∧ orderIsPlaced σ it.orderId = true := by
    intro pid
    rw [getAggregatedProcurementList, mem_keys_foldl, procurementJoin]
    simpa using mem_keys_filterMap_joinRow σ σ.orderItems hp pid
  have htot : ∀ a ∈ getAggregatedProcurementList σ,
      a.totalQuantity = placedDemand σ a.productId := by
    intro a ha
    rw [totalQuantity_eq_keyTotal (getAggregatedProcurementList σ) hnodup a ha,
      getAggregatedProcurementList, keyTotal_foldl, keyTotal_nil,
      procurementJoin, keyTotal_filterMap_joinRow σ σ.orderItems hp]
    rw [placedDemand]
    omega
  refine ⟨hnodup, hmem, htot, ?_⟩
  intro pid hzero hin
  obtain ⟨it, hit, hid, hplaced⟩ := (hmem pid).mp hin
  have hinfilter : it ∈ σ.orderItems.filter
      (fun it => it.productId = pid ∧ orderIsPlaced σ it.orderId) := by
    rw [List.mem_filter]
    exact ⟨hit, by simp [hid, hplaced]⟩
  have hle : it.quantity ≤ placedDemand σ pid :=
    List.le_sum_of_mem (List.mem_map.mpr ⟨it, hinfilter, rfl⟩)
  have := hq it hit
  omega

/-- Witness for C2: `wStore` has two PLACED orders demanding product A with
quantities 2 and 5; all hypotheses hold by computation. -/
theorem aggregated_procurement_correct_witness :
    ((getAggregatedProcurementList wStore).map (·.productId)).Nodup ∧
    (∀ pid, pid ∈ (getAggregatedProcurementList wStore).map (·.productId) ↔
      ∃ it ∈ wStore.orderItems, it.productId = pid ∧ orderIsPlaced wStore it.orderId = true) ∧
    (∀ a ∈ getAggregatedProcurementList wStore,
      a.totalQuantity = placedDemand wStore a.productId) ∧
    (∀ pid, placedDemand wStore pid = 0 →
      pid ∉ (getAggregatedProcurementList wStore).map (·.productId)) :=
  aggregated_procurement_correct wStore (by decide) (by decide) (by decide) (by decide)

end ApnaMandi
